import Mathlib

/-!
Verification of the tde2e encryption construction
(`tde2e/td/e2e/encryption_test.py`).

Bytes are modelled as `List Nat`.  The cryptographic primitives
(HMAC-SHA512, HMAC-SHA256, AES-256-CBC) come from an external library
(PyCryptodome), not from this repository, so they are abstracted as the
fields of a `Crypto` structure together with the properties the scheme
relies on: fixed output lengths of the HMACs, length preservation of
AES-CBC on block-aligned data, and that CBC decryption inverts CBC
encryption under the same key/IV.  Every function of the repository is
translated directly from the Python source on top of these primitives.
-/

namespace TdE2E

/-- Byte strings, one `Nat` per byte. -/
abbrev Bytes := List Nat

/-- Abstract interface to the external cryptographic library
(PyCryptodome's `HMAC`/`SHA512`/`SHA256`/`AES`), together with the
properties of those primitives that the scheme relies on. -/
structure Crypto where
  /-- Python `HMAC.new(a, b, SHA512).digest()` : 64-byte output. -/
  hmacSha512 : Bytes → Bytes → Bytes
  /-- Python `HMAC.new(a, b, SHA256).digest()` : 32-byte output. -/
  hmacSha256 : Bytes → Bytes → Bytes
  /-- Python `AES.new(key, AES.MODE_CBC, iv).encrypt(data)` (no padding). -/
  aesCbcEncrypt : Bytes → Bytes → Bytes → Bytes
  /-- Python `AES.new(key, AES.MODE_CBC, iv).decrypt(data)` (no padding). -/
  aesCbcDecrypt : Bytes → Bytes → Bytes → Bytes
  hmacSha512_length : ∀ a b, (hmacSha512 a b).length = 64
  hmacSha256_length : ∀ a b, (hmacSha256 a b).length = 32
  aesCbcEncrypt_length : ∀ k iv d, (aesCbcEncrypt k iv d).length = d.length
  aesCbcDecrypt_length : ∀ k iv d, (aesCbcDecrypt k iv d).length = d.length
  aesCbc_decrypt_encrypt :
    ∀ k iv d, d.length % 16 = 0 → aesCbcDecrypt k iv (aesCbcEncrypt k iv d) = d

/-- Errors raised by the Python code (`ValueError`s with distinct
messages).  The spec groups `dataTooSmall`, `dataSizeNotDivisible`,
`invalidHeaderSize` and `invalidMessageSize` as `SizeError`,
`msgIdMismatch` as `AuthenticationError` and `invalidPrefixSize` as
`PaddingError`. -/
inductive CryptoError where
  /-- Message "Failed to decrypt: data is too small". -/
  | dataTooSmall
  /-- Message "Failed to decrypt: data size is not divisible by 16". -/
  | dataSizeNotDivisible
  /-- Message "Failed to decrypt: msg_id mismatch". -/
  | msgIdMismatch
  /-- Message "Failed to decrypt: invalid prefix size". -/
  | invalidPrefixSize
  /-- Message "Failed to decrypt: invalid header size". -/
  | invalidHeaderSize
  /-- Message "Failed to decrypt: invalid message size". -/
  | invalidMessageSize
deriving DecidableEq, Repr

/-- The spec groups the two decrypt-data size checks and the two
header size checks under the `SizeError` taxon. -/
def CryptoError.isSizeError : CryptoError → Bool
  | .dataTooSmall => true
  | .dataSizeNotDivisible => true
  | .invalidHeaderSize => true
  | .invalidMessageSize => true
  | _ => false

/-- Whether a decryption result is a `SizeError` failure. -/
def isSizeErrorResult : Except CryptoError Bytes → Bool
  | .error e => e.isSizeError
  | .ok _ => false

/-- The UTF-8 bytes of the context label `"tde2e_encrypt_data"`. -/
def tde2e_encrypt_data_label : Bytes :=
  [116, 100, 101, 50, 101, 95, 101, 110, 99, 114, 121, 112, 116, 95,
   100, 97, 116, 97]

/-- The UTF-8 bytes of the context label `"tde2e_encrypt_header"`. -/
def tde2e_encrypt_header_label : Bytes :=
  [116, 100, 101, 50, 101, 95, 101, 110, 99, 114, 121, 112, 116, 95,
   104, 101, 97, 100, 101, 114]

/-- Python `generate_deterministic_padding(data_size, min_padding)`
(lines 14-22).  Python computes
`((min_padding + 15 + data_size) & -16) - data_size`; on non-negative
integers `x & -16` clears the four low bits, i.e. equals
`x / 16 * 16`.  The buffer is zero-initialised and byte 0 is set to the
padding size. -/
def generate_deterministic_padding (data_size min_padding : Nat) : Bytes :=
  let padding_size := (min_padding + 15 + data_size) / 16 * 16 - data_size
  (List.replicate padding_size 0).set 0 padding_size

/-- Python `kdf(key, info)` (lines 43-44): HMAC-SHA512 of the context label
under the key. -/
def kdf (C : Crypto) (key info : Bytes) : Bytes :=
  C.hmacSha512 key info

/-- Python `encode_len(extra)` (lines 46-47): `struct.pack('<i', len(extra))`,
the length as a 4-byte little-endian integer. -/
def encode_len (extra : Bytes) : Bytes :=
  [extra.length % 256, extra.length / 256 % 256,
   extra.length / 65536 % 256, extra.length / 16777216 % 256]

/-- Python `encrypt_data_with_prefix(data, secret, extra)` (lines 49-76).
The leading `assert len(data) % 16 == 0` is modelled by returning
`none`. -/
def encrypt_data_with_prefix (C : Crypto) (data secret extra : Bytes) :
    Option Bytes :=
  if data.length % 16 ≠ 0 then none
  else
    let large_secret := kdf C secret tde2e_encrypt_data_label
    let encrypt_secret := large_secret.take 32
    let hmac_secret := (large_secret.drop 32).take 32
    let large_msg_id := C.hmacSha256 hmac_secret (data ++ extra ++ encode_len extra)
    let msg_id := large_msg_id.take 16
    let encryption_secret := C.hmacSha512 encrypt_secret msg_id
    let key := encryption_secret.take 32
    let iv := (encryption_secret.drop 32).take 16
    some (msg_id ++ C.aesCbcEncrypt key iv data)

/-- The padded buffer built by `encrypt_data_with_deterministic_padding`
(lines 80-85): the deterministic padding followed by the data. -/
def padded (data : Bytes) : Bytes :=
  generate_deterministic_padding data.length 16 ++ data

/-- Python `encrypt_data_with_deterministic_padding(data, secret, extra)`
(lines 78-88). -/
def encrypt_data_with_deterministic_padding (C : Crypto)
    (data secret extra : Bytes) : Option Bytes :=
  encrypt_data_with_prefix C (padded data) secret extra

/-- Python `encrypt_header(header, encrypted_message, secret)` (lines 90-109).
The two `assert`s are modelled by returning `none`. -/
def encrypt_header (C : Crypto) (header encrypted_message secret : Bytes) :
    Option Bytes :=
  if header.length ≠ 32 then none
  else if encrypted_message.length < 16 then none
  else
    let msg_id := encrypted_message.take 16
    let encryption_key := (kdf C secret tde2e_encrypt_header_label).take 32
    let encryption_secret := kdf C encryption_key msg_id
    let key := encryption_secret.take 32
    let iv := (encryption_secret.drop 32).take 16
    some (C.aesCbcEncrypt key iv header)

/-- The AES-CBC decryption step of `decrypt_data` (lines 118-134): key
and IV are derived from the transmitted 16-byte message identifier and
the remainder of the input is decrypted. -/
def decrypted_plaintext (C : Crypto) (encrypted_data secret : Bytes) : Bytes :=
  let msg_id := encrypted_data.take 16
  let encrypted_part := encrypted_data.drop 16
  let large_secret := kdf C secret tde2e_encrypt_data_label
  let encrypt_secret := large_secret.take 32
  let encryption_secret := C.hmacSha512 encrypt_secret msg_id
  let key := encryption_secret.take 32
  let iv := (encryption_secret.drop 32).take 16
  C.aesCbcDecrypt key iv encrypted_part

/-- The identifier recomputed by `decrypt_data` (lines 137-138):
HMAC-SHA256 keyed with the MAC subkey over
`decrypted_plaintext || extra || encode_len(extra)`, first 16 bytes. -/
def recomputed_msg_id (C : Crypto) (encrypted_data secret extra : Bytes) :
    Bytes :=
  let large_secret := kdf C secret tde2e_encrypt_data_label
  let hmac_secret := (large_secret.drop 32).take 32
  (C.hmacSha256 hmac_secret
    ( decrypted_plaintext C encrypted_data secret ++ extra ++ encode_len extra)).take 16

/-- The padding-removal step of `decrypt_data` (lines 142-147): read
byte 0 as the padding size, reject it when it exceeds the buffer length
or is below 16, otherwise drop it. -/
def unpad (decrypted_data : Bytes) : Except CryptoError Bytes :=
  let prefix_size := decrypted_data.headD 0
  if decrypted_data.length < prefix_size ∨ prefix_size < 16 then
    Except.error CryptoError.invalidPrefixSize
  else
    Except.ok (decrypted_data.drop prefix_size)

/-- Python `decrypt_data(encrypted_data, secret, extra)` (lines 111-147):
size checks, AES-CBC decryption, identifier verification, padding
removal. -/
def decrypt_data (C : Crypto) (encrypted_data secret extra : Bytes) :
    Except CryptoError Bytes :=
  if encrypted_data.length < 17 then
    Except.error CryptoError.dataTooSmall
  else if encrypted_data.length % 16 ≠ 0 then
    Except.error CryptoError.dataSizeNotDivisible
  else if encrypted_data.take 16 ≠ recomputed_msg_id C encrypted_data secret extra then
    Except.error CryptoError.msgIdMismatch
  else
    unpad ( decrypted_plaintext C encrypted_data secret)

/-- Python `decrypt_header(encrypted_header, encrypted_message, secret)`
(lines 149-169). -/
def decrypt_header (C : Crypto) (encrypted_header encrypted_message secret : Bytes) :
    Except CryptoError Bytes :=
  if encrypted_header.length ≠ 32 then
    Except.error CryptoError.invalidHeaderSize
  else if encrypted_message.length < 16 then
    Except.error CryptoError.invalidMessageSize
  else
    let msg_id := encrypted_message.take 16
    let encryption_key := (kdf C secret tde2e_encrypt_header_label).take 32
    let encryption_secret := kdf C encryption_key msg_id
    let key := encryption_secret.take 32
    let iv := (encryption_secret.drop 32).take 16
    Except.ok (C.aesCbcDecrypt key iv encrypted_header)

/-- The message identifier exactly as §4.3 of the spec words it:
`mac_key` is bytes 32..64 of `HMAC-SHA512(secret, "tde2e_encrypt_data")`
and the identifier is the first 16 bytes of HMAC-SHA256 keyed with
`mac_key` over `plaintext || extra || little_endian_int32(len(extra))`. -/
def spec_msg_id (C : Crypto) (secret plaintext extra : Bytes) : Bytes :=
  let large := C.hmacSha512 secret tde2e_encrypt_data_label
  let mac_key := (large.drop 32).take 32
  (C.hmacSha256 mac_key (plaintext ++ extra ++ encode_len extra)).take 16

/-- A degenerate instantiation of the primitive interface (constant
HMACs, identity cipher), used to evaluate the scheme on concrete
inputs. -/
def idCrypto : Crypto where
  hmacSha512 := fun _ _ => List.replicate 64 0
  hmacSha256 := fun _ _ => List.replicate 32 0
  aesCbcEncrypt := fun _ _ d => d
  aesCbcDecrypt := fun _ _ d => d
  hmacSha512_length := fun _ _ => List.length_replicate 64 0
  hmacSha256_length := fun _ _ => List.length_replicate 32 0
  aesCbcEncrypt_length := fun _ _ _ => rfl
  aesCbcDecrypt_length := fun _ _ _ => rfl
  aesCbc_decrypt_encrypt := fun _ _ _ _ => rfl

/-! ### Helper lemmas about the padding -/

theorem gdp_length (data_size min_padding : Nat) :
    (generate_deterministic_padding data_size min_padding).length =
      (min_padding + 15 + data_size) / 16 * 16 - data_size := by
  simp [generate_deterministic_padding]

theorem pad_size_bounds (n : Nat) :
    16 ≤ (16 + 15 + n) / 16 * 16 - n ∧ (16 + 15 + n) / 16 * 16 - n ≤ 31 := by
  have h1 : (16 + 15 + n) / 16 * 16 ≤ 16 + 15 + n := Nat.div_mul_le_self _ 16
  have h2 : 16 + 15 + n < (16 + 15 + n) / 16 * 16 + 16 :=
    Nat.lt_div_mul_add (by norm_num)
  omega

theorem gdp_cons (n : Nat) :
    generate_deterministic_padding n 16 =
      ((16 + 15 + n) / 16 * 16 - n) ::
        List.replicate ((16 + 15 + n) / 16 * 16 - n - 1) 0 := by
  have h := (pad_size_bounds n).1
  unfold generate_deterministic_padding
  cases hps : (16 + 15 + n) / 16 * 16 - n with
  | zero => omega
  | succ m => simp [List.replicate_succ]

theorem padded_length (data : Bytes) :
    (padded data).length = (16 + 15 + data.length) / 16 * 16 := by
  have h := (pad_size_bounds data.length).1
  have h1 : (16 + 15 + data.length) / 16 * 16 ≤ 16 + 15 + data.length :=
    Nat.div_mul_le_self _ 16
  simp only [padded, List.length_append, gdp_length]
  omega

theorem padded_length_mod (data : Bytes) : (padded data).length % 16 = 0 := by
  rw [padded_length]
  exact Nat.mul_mod_left _ 16

theorem padded_length_lb (data : Bytes) :
    data.length + 16 ≤ (padded data).length := by
  rw [padded_length]
  have h2 : 16 + 15 + data.length < (16 + 15 + data.length) / 16 * 16 + 16 :=
    Nat.lt_div_mul_add (by norm_num)
  omega

theorem unpad_padded (data : Bytes) : unpad (padded data) = Except.ok data := by
  have hb := pad_size_bounds data.length
  have hl := padded_length_lb data
  have hplen : (generate_deterministic_padding data.length 16).length =
      (16 + 15 + data.length) / 16 * 16 - data.length := gdp_length _ _
  have hhead : (padded data).headD 0 =
      (16 + 15 + data.length) / 16 * 16 - data.length := by
    rw [padded, gdp_cons]
    rfl
  have hlen2 : (padded data).length =
      ((16 + 15 + data.length) / 16 * 16 - data.length) + data.length := by
    simp only [padded, List.length_append, hplen]
  unfold unpad
  rw [hhead, if_neg (by omega)]
  rw [show (padded data).drop ((16 + 15 + data.length) / 16 * 16 - data.length) =
      data from by
    rw [padded, ← hplen]
    exact List.drop_left _ _]

/-! ### Helper lemmas about the ciphers -/

theorem msg_id_take_length (C : Crypto) (k m : Bytes) :
    ((C.hmacSha256 k m).take 16).length = 16 := by
  simp [List.length_take, C.hmacSha256_length]

theorem recomputed_eq_spec (C : Crypto) (e secret extra : Bytes) :
    recomputed_msg_id C e secret extra =
      spec_msg_id C secret ( decrypted_plaintext C e secret) extra := rfl

theorem decrypt_data_of_id_match (C : Crypto) (e secret extra : Bytes)
    (h17 : 17 ≤ e.length) (hmod : e.length % 16 = 0)
    (hid : e.take 16 = recomputed_msg_id C e secret extra) :
    decrypt_data C e secret extra = unpad ( decrypted_plaintext C e secret) := by
  unfold decrypt_data
  rw [if_neg (by omega), if_neg (by omega), if_neg (by simp [hid])]

theorem encrypt_prefix_eq (C : Crypto) (data secret extra : Bytes)
    (hmod : data.length % 16 = 0) :
    encrypt_data_with_prefix C data secret extra =
      some (spec_msg_id C secret data extra ++
        C.aesCbcEncrypt
          ((C.hmacSha512 ((C.hmacSha512 secret tde2e_encrypt_data_label).take 32)
            (spec_msg_id C secret data extra)).take 32)
          (((C.hmacSha512 ((C.hmacSha512 secret tde2e_encrypt_data_label).take 32)
            (spec_msg_id C secret data extra)).drop 32).take 16)
          data) := by
  unfold encrypt_data_with_prefix spec_msg_id kdf
  rw [if_neg (by omega)]

theorem decrypted_plaintext_append (C : Crypto) (m ct secret : Bytes)
    (hm : m.length = 16) :
    decrypted_plaintext C (m ++ ct) secret =
      C.aesCbcDecrypt
        ((C.hmacSha512 ((C.hmacSha512 secret tde2e_encrypt_data_label).take 32)
          m).take 32)
        (((C.hmacSha512 ((C.hmacSha512 secret tde2e_encrypt_data_label).take 32)
          m).drop 32).take 16)
        ct := by
  unfold decrypted_plaintext kdf
  rw [List.take_left' hm, List.drop_left' hm]

theorem decrypt_data_append_of (C : Crypto) (m ct secret extra data : Bytes)
    (hm : m.length = 16) (hlen : 16 ≤ data.length)
    (hmod : data.length % 16 = 0)
    (hct : ct.length = data.length)
    (hdp : decrypted_plaintext C (m ++ ct) secret = data)
    (hid : spec_msg_id C secret data extra = m) :
    decrypt_data C (m ++ ct) secret extra = unpad data := by
  have hrc : recomputed_msg_id C (m ++ ct) secret extra = m := by
    rw [recomputed_eq_spec, hdp, hid]
  have hl : (m ++ ct).length = 16 + data.length := by
    simp [hm, hct]
  rw [decrypt_data_of_id_match C _ secret extra (by omega) (by omega)
    (by rw [List.take_left' hm, hrc]), hdp]

theorem roundtrip_core (C : Crypto) (data secret extra : Bytes)
    (hmod : data.length % 16 = 0) (hlen : 16 ≤ data.length) :
    ( encrypt_data_with_prefix C data secret extra).map
      (fun e => decrypt_data C e secret extra) = some (unpad data) := by
  rw [encrypt_prefix_eq C data secret extra hmod, Option.map_some']
  have hm : (spec_msg_id C secret data extra).length = 16 :=
    msg_id_take_length C _ _
  have hdp : decrypted_plaintext C
      (spec_msg_id C secret data extra ++
        C.aesCbcEncrypt
          ((C.hmacSha512 ((C.hmacSha512 secret tde2e_encrypt_data_label).take 32)
            (spec_msg_id C secret data extra)).take 32)
          (((C.hmacSha512 ((C.hmacSha512 secret tde2e_encrypt_data_label).take 32)
            (spec_msg_id C secret data extra)).drop 32).take 16)
          data) secret = data := by
    rw [decrypted_plaintext_append C _ _ secret hm]
    exact C.aesCbc_decrypt_encrypt _ _ _ hmod
  rw [decrypt_data_append_of C _ _ secret extra data hm hlen hmod
    (C.aesCbcEncrypt_length _ _ _) hdp rfl]

theorem unpad_ne_mismatch (d : Bytes) :
    unpad d ≠ Except.error CryptoError.msgIdMismatch := by
  simp only [unpad]
  split <;> simp

/-! ### Claim theorems -/

/-- C1: for every 32-byte secret, every plaintext and every
associated-data byte sequence, decrypting the result of
padding-and-encrypting succeeds and returns the original plaintext. -/
theorem claim_C1_encrypt_decrypt_round_trip (C : Crypto)
    (secret data extra : Bytes) (_hsecret : secret.length = 32) :
    ( encrypt_data_with_deterministic_padding C data secret extra).map
      (fun e => decrypt_data C e secret extra) = some (Except.ok data) := by
  unfold encrypt_data_with_deterministic_padding
  rw [roundtrip_core C (padded data) secret extra (padded_length_mod data)
    (by have := padded_length_lb data; omega), unpad_padded]

theorem claim_C1_witness :
    ( encrypt_data_with_deterministic_padding idCrypto [1, 2, 3]
        (List.replicate 32 0) [7]).map
      (fun e => decrypt_data idCrypto e (List.replicate 32 0) [7]) =
      some (Except.ok [1, 2, 3]) :=
  claim_C1_encrypt_decrypt_round_trip idCrypto (List.replicate 32 0)
    [1, 2, 3] [7] (by rfl)

/-- C2: once the size checks pass, `decrypt_data` fails with the
authentication error (`msg_id mismatch`) exactly when the recomputed
identifier differs from the transmitted first 16 bytes; in that case no
plaintext is returned. -/
theorem claim_C2_authentication_check (C : Crypto) (e secret extra : Bytes)
    (h17 : 17 ≤ e.length) (hmod : e.length % 16 = 0) :
    decrypt_data C e secret extra = Except.error CryptoError.msgIdMismatch ↔
      e.take 16 ≠ recomputed_msg_id C e secret extra := by
  unfold decrypt_data
  rw [if_neg (by omega), if_neg (by omega)]
  by_cases h : e.take 16 = recomputed_msg_id C e secret extra
  · rw [if_neg (by simp [h])]
    simp only [h, ne_eq, not_true_eq_false, iff_false]
    exact unpad_ne_mismatch _
  · rw [if_pos h]
    simp [h]

theorem claim_C2_witness :
    (17 ≤ (List.replicate 32 1 : Bytes).length ∧
      (List.replicate 32 1 : Bytes).length % 16 = 0) ∧
    (decrypt_data idCrypto (List.replicate 32 1) (List.replicate 32 0) [] =
        Except.error CryptoError.msgIdMismatch ↔
      (List.replicate 32 1 : Bytes).take 16 ≠
        recomputed_msg_id idCrypto (List.replicate 32 1) (List.replicate 32 0) []) :=
  ⟨⟨by decide, by decide⟩,
    claim_C2_authentication_check idCrypto (List.replicate 32 1)
      (List.replicate 32 0) [] (by decide) (by decide)⟩

/-- C3: message and header encryption are deterministic — byte-identical
arguments give byte-identical outputs; the embedded core path contains
no source of randomness. -/
theorem claim_C3_determinism (C : Crypto)
    (data secret extra data2 secret2 extra2 header msg header2 msg2 : Bytes)
    (h1 : data = data2) (h2 : secret = secret2) (h3 : extra = extra2)
    (h4 : header = header2) (h5 : msg = msg2) :
    encrypt_data_with_prefix C data secret extra =
        encrypt_data_with_prefix C data2 secret2 extra2 ∧
      encrypt_header C header msg secret =
        encrypt_header C header2 msg2 secret2 := by
  subst h1 h2 h3 h4 h5
  exact ⟨rfl, rfl⟩

theorem claim_C3_witness :
    encrypt_data_with_prefix idCrypto [] [] [] =
        encrypt_data_with_prefix idCrypto [] [] [] ∧
      encrypt_header idCrypto (List.replicate 32 0) (List.replicate 16 0) [] =
        encrypt_header idCrypto (List.replicate 32 0) (List.replicate 16 0) [] :=
  claim_C3_determinism idCrypto [] [] [] [] [] []
    (List.replicate 32 0) (List.replicate 16 0)
    (List.replicate 32 0) (List.replicate 16 0) rfl rfl rfl rfl rfl

/-- C4: for every 32-byte header, every secret and every encrypted
message of length at least 16, header encryption followed by header
decryption returns the original header. -/
theorem claim_C4_header_round_trip (C : Crypto) (header msg secret : Bytes)
    (hh : header.length = 32) (hm : 16 ≤ msg.length) :
    ( encrypt_header C header msg secret).map
      (fun eh => decrypt_header C eh msg secret) = some (Except.ok header) := by
  unfold encrypt_header
  rw [if_neg (by omega), if_neg (by omega)]
  simp only [Option.map_some']
  simp only [decrypt_header]
  rw [if_neg (by rw [C.aesCbcEncrypt_length]; omega), if_neg (by omega)]
  rw [C.aesCbc_decrypt_encrypt _ _ _ (by omega)]

theorem claim_C4_witness :
    ( encrypt_header idCrypto (List.replicate 32 3) (List.replicate 16 0)
        (List.replicate 32 0)).map
      (fun eh => decrypt_header idCrypto eh (List.replicate 16 0)
        (List.replicate 32 0)) = some (Except.ok (List.replicate 32 3)) :=
  claim_C4_header_round_trip idCrypto (List.replicate 32 3)
    (List.replicate 16 0) (List.replicate 32 0) (by rfl) (by decide)

/-- C5: with `min_padding = 16` the padding length is
`round_up(16 + len(data), 16) - len(data)`; the padded buffer's length
is a multiple of 16 and exceeds the data length by at least 16; the
first padding byte holds the padding length and the remaining padding
bytes are zero. -/
theorem claim_C5_padding_shape (data : Bytes) :
    (generate_deterministic_padding data.length 16).length =
        (16 + data.length + 15) / 16 * 16 - data.length ∧
      (padded data).length % 16 = 0 ∧
      data.length + 16 ≤ (padded data).length ∧
      (generate_deterministic_padding data.length 16).headD 0 =
        (generate_deterministic_padding data.length 16).length ∧
      (generate_deterministic_padding data.length 16).tail =
        List.replicate
          ((generate_deterministic_padding data.length 16).length - 1) 0 := by
  refine ⟨?_, padded_length_mod data, padded_length_lb data, ?_, ?_⟩
  · rw [gdp_length]
    have h : 16 + data.length + 15 = 16 + 15 + data.length := by omega
    rw [h]
  · have h := (pad_size_bounds data.length).1
    rw [gdp_cons]
    simp only [List.headD_cons, List.length_cons, List.length_replicate]
    omega
  · rw [gdp_cons]
    simp only [List.tail_cons, List.length_cons, List.length_replicate,
      Nat.add_sub_cancel]

/-- C6: the padding-removal step reads byte 0 as the length `p`, fails
with the padding error exactly when `p < 16` or `p > len`, and
otherwise drops the first `p` bytes; inside `decrypt_data` it runs once
the identifier check has passed and its result is returned as is. -/
theorem claim_C6_unpad_behaviour (buf buf2 : Bytes) (C : Crypto)
    (e secret extra : Bytes)
    (_hne : buf ≠ []) (_hne2 : buf2 ≠ [])
    (hp1 : 16 ≤ buf2.headD 0) (hp2 : buf2.headD 0 ≤ buf2.length)
    (h17 : 17 ≤ e.length) (hmod : e.length % 16 = 0)
    (hid : e.take 16 = recomputed_msg_id C e secret extra) :
    (unpad buf = Except.error CryptoError.invalidPrefixSize ↔
        (buf.headD 0 < 16 ∨ buf.length < buf.headD 0)) ∧
      unpad buf2 = Except.ok (buf2.drop (buf2.headD 0)) ∧
      decrypt_data C e secret extra = unpad ( decrypted_plaintext C e secret) := by
  refine ⟨?_, ?_, decrypt_data_of_id_match C e secret extra h17 hmod hid⟩
  · simp only [unpad]
    by_cases h : buf.length < buf.headD 0 ∨ buf.headD 0 < 16
    · rw [if_pos h]
      simp only [true_iff]
      omega
    · rw [if_neg h]
      constructor
      · intro hc
        exact Except.noConfusion hc
      · intro hc
        exfalso
        omega
  · simp only [unpad]
    rw [if_neg (by omega)]

theorem claim_C6_witness :
    ((List.replicate 16 0 : Bytes) ≠ [] ∧
      (16 :: List.replicate 15 0 : Bytes) ≠ [] ∧
      16 ≤ (16 :: List.replicate 15 0 : Bytes).headD 0 ∧
      (16 :: List.replicate 15 0 : Bytes).headD 0 ≤
        (16 :: List.replicate 15 0 : Bytes).length ∧
      17 ≤ (List.replicate 32 0 : Bytes).length ∧
      (List.replicate 32 0 : Bytes).length % 16 = 0 ∧
      (List.replicate 32 0 : Bytes).take 16 =
        recomputed_msg_id idCrypto (List.replicate 32 0) (List.replicate 32 0) []) ∧
    ((unpad (List.replicate 16 0) = Except.error CryptoError.invalidPrefixSize ↔
        ((List.replicate 16 0 : Bytes).headD 0 < 16 ∨
          (List.replicate 16 0 : Bytes).length <
            (List.replicate 16 0 : Bytes).headD 0)) ∧
      unpad (16 :: List.replicate 15 0) =
        Except.ok ((16 :: List.replicate 15 0 : Bytes).drop
          ((16 :: List.replicate 15 0 : Bytes).headD 0)) ∧
      decrypt_data idCrypto (List.replicate 32 0) (List.replicate 32 0) [] =
        unpad ( decrypted_plaintext idCrypto (List.replicate 32 0)
          (List.replicate 32 0))) :=
  ⟨⟨by decide, by decide, by decide, by decide, by decide, by decide, by decide⟩,
    claim_C6_unpad_behaviour (List.replicate 16 0) (16 :: List.replicate 15 0)
      idCrypto (List.replicate 32 0) (List.replicate 32 0) []
      (by decide) (by decide) (by decide) (by decide) (by decide) (by decide)
      (by decide)⟩

theorem isSizeErrorResult_unpad (d : Bytes) :
    isSizeErrorResult (unpad d) = false := by
  simp only [unpad]
  split <;> rfl

/-- C7: `decrypt_data` fails with a size error exactly when the input is
shorter than 17 bytes or its length is not a multiple of 16; in
particular a 16-byte input and a 33-byte input each fail with a size
error. -/
theorem claim_C7_size_validation (C : Crypto) (e secret extra : Bytes) :
    (isSizeErrorResult (decrypt_data C e secret extra) = true ↔
        (e.length < 17 ∨ e.length % 16 ≠ 0)) ∧
      decrypt_data C (List.replicate 16 0) secret extra =
        Except.error CryptoError.dataTooSmall ∧
      decrypt_data C (List.replicate 33 0) secret extra =
        Except.error CryptoError.dataSizeNotDivisible := by
  refine ⟨?_, ?_, ?_⟩
  · unfold decrypt_data
    by_cases h1 : e.length < 17
    · rw [if_pos h1]
      simp [h1, isSizeErrorResult, CryptoError.isSizeError]
    · rw [if_neg h1]
      by_cases h2 : e.length % 16 ≠ 0
      · rw [if_pos h2]
        simp [h1, h2, isSizeErrorResult, CryptoError.isSizeError]
      · rw [if_neg h2]
        by_cases h3 : e.take 16 ≠ recomputed_msg_id C e secret extra
        · rw [if_pos h3]
          simp [h1, h2, isSizeErrorResult, CryptoError.isSizeError]
        · rw [if_neg h3]
          simp [h1, h2, isSizeErrorResult_unpad]
  · unfold decrypt_data
    rw [if_pos (by simp)]
  · unfold decrypt_data
    rw [if_neg (by simp), if_pos (by simp)]

/-- C8: on a padded plaintext (length a multiple of 16) the encrypted
message is the 16-byte identifier followed by a ciphertext of the same
length as the plaintext, total length `len(plaintext) + 16`; and the
output of padding-and-encrypting always has length at least 32 and a
multiple of 16. -/
theorem claim_C8_output_lengths (C : Crypto) (data data2 secret extra : Bytes)
    (hmod : data.length % 16 = 0) :
    ( encrypt_data_with_prefix C data secret extra).map
        (fun e => (e.length, (e.take 16).length, (e.drop 16).length)) =
        some (data.length + 16, 16, data.length) ∧
      ( encrypt_data_with_deterministic_padding C data2 secret extra).map
        List.length = some ((padded data2).length + 16) ∧
      32 ≤ (padded data2).length + 16 ∧
      ((padded data2).length + 16) % 16 = 0 := by
  have hshape : ∀ d : Bytes, d.length % 16 = 0 →
      ( encrypt_data_with_prefix C d secret extra).map List.length =
        some (d.length + 16) := by
    intro d hd
    rw [encrypt_prefix_eq C d secret extra hd, Option.map_some']
    simp only [spec_msg_id, List.length_append, List.length_take,
      C.hmacSha256_length, C.aesCbcEncrypt_length]
    congr 1
    omega
  refine ⟨?_, ?_, ?_, ?_⟩
  · rw [encrypt_prefix_eq C data secret extra hmod, Option.map_some']
    have hm : (spec_msg_id C secret data extra).length = 16 :=
      msg_id_take_length C _ _
    rw [List.take_left' hm, List.drop_left' hm]
    simp only [List.length_append, hm, C.aesCbcEncrypt_length]
    rw [Nat.add_comm]
  · exact hshape (padded data2) (padded_length_mod data2)
  · have := padded_length_lb data2
    omega
  · have := padded_length_mod data2
    omega

theorem claim_C8_witness :
    ((List.replicate 16 5 : Bytes).length % 16 = 0) ∧
    (( encrypt_data_with_prefix idCrypto (List.replicate 16 5)
          (List.replicate 32 0) []).map
        (fun e => (e.length, (e.take 16).length, (e.drop 16).length)) =
        some ((List.replicate 16 5 : Bytes).length + 16, 16,
          (List.replicate 16 5 : Bytes).length) ∧
      ( encrypt_data_with_deterministic_padding idCrypto [1]
          (List.replicate 32 0) []).map List.length =
        some ((padded [1]).length + 16) ∧
      32 ≤ (padded [1]).length + 16 ∧
      ((padded [1]).length + 16) % 16 = 0) :=
  ⟨by decide,
    claim_C8_output_lengths idCrypto (List.replicate 16 5) [1]
      (List.replicate 32 0) [] (by decide)⟩

/-- C9: the transmitted identifier equals the first 16 bytes of
HMAC-SHA256 keyed with `mac_key` (bytes 32..64 of
`HMAC-SHA512(secret, "tde2e_encrypt_data")`) over
`plaintext || extra || little_endian_int32(len(extra))` — transcribed
in `spec_msg_id` — and `decrypt_data` recomputes the identifier by the
identical formula applied to the decrypted plaintext. -/
theorem claim_C9_msg_id_formula (C : Crypto) (data secret extra e : Bytes)
    (hmod : data.length % 16 = 0) :
    ( encrypt_data_with_prefix C data secret extra).map (List.take 16) =
        some (spec_msg_id C secret data extra) ∧
      recomputed_msg_id C e secret extra =
        spec_msg_id C secret ( decrypted_plaintext C e secret) extra := by
  refine ⟨?_, recomputed_eq_spec C e secret extra⟩
  rw [encrypt_prefix_eq C data secret extra hmod, Option.map_some']
  have hm : (spec_msg_id C secret data extra).length = 16 :=
    msg_id_take_length C _ _
  rw [List.take_left' hm]

theorem claim_C9_witness :
    ((List.replicate 16 4 : Bytes).length % 16 = 0) ∧
    (( encrypt_data_with_prefix idCrypto (List.replicate 16 4)
          (List.replicate 32 7) [9]).map (List.take 16) =
        some (spec_msg_id idCrypto (List.replicate 32 7) (List.replicate 16 4) [9]) ∧
      recomputed_msg_id idCrypto (List.replicate 32 2) (List.replicate 32 7) [9] =
        spec_msg_id idCrypto (List.replicate 32 7)
          ( decrypted_plaintext idCrypto (List.replicate 32 2)
            (List.replicate 32 7)) [9]) :=
  ⟨by decide,
    claim_C9_msg_id_formula idCrypto (List.replicate 16 4) (List.replicate 32 7)
      [9] (List.replicate 32 2) (by decide)⟩

/-- C10: header encryption and decryption depend on the paired
encrypted message only through its first 16 bytes. -/
theorem claim_C10_depends_on_first16 (C : Crypto)
    (header eh m1 m2 secret : Bytes)
    (h16 : m1.take 16 = m2.take 16)
    (hl1 : 16 ≤ m1.length) (hl2 : 16 ≤ m2.length) :
    encrypt_header C header m1 secret = encrypt_header C header m2 secret ∧
      decrypt_header C eh m1 secret = decrypt_header C eh m2 secret := by
  constructor
  · by_cases hh : header.length = 32
    · simp only [encrypt_header]
      rw [if_neg (by omega), if_neg (by omega), if_neg (by omega),
        if_neg (by omega), h16]
    · simp only [encrypt_header]
      rw [if_pos (by omega)]
      rw [if_pos (by omega)]
  · by_cases hh : eh.length = 32
    · simp only [decrypt_header]
      rw [if_neg (by omega), if_neg (by omega), if_neg (by omega),
        if_neg (by omega), h16]
    · simp only [decrypt_header]
      rw [if_pos (by omega)]
      rw [if_pos (by omega)]

theorem claim_C10_witness :
    ((List.replicate 16 0 : Bytes).take 16 =
        (List.replicate 16 0 ++ [1] : Bytes).take 16 ∧
      16 ≤ (List.replicate 16 0 : Bytes).length ∧
      16 ≤ (List.replicate 16 0 ++ [1] : Bytes).length) ∧
    ( encrypt_header idCrypto (List.replicate 32 0) (List.replicate 16 0)
          (List.replicate 32 0) =
        encrypt_header idCrypto (List.replicate 32 0)
          (List.replicate 16 0 ++ [1]) (List.replicate 32 0) ∧
      decrypt_header idCrypto (List.replicate 32 0) (List.replicate 16 0)
          (List.replicate 32 0) =
        decrypt_header idCrypto (List.replicate 32 0)
          (List.replicate 16 0 ++ [1]) (List.replicate 32 0)) :=
  ⟨⟨by decide, by decide, by decide⟩,
    claim_C10_depends_on_first16 idCrypto (List.replicate 32 0)
      (List.replicate 32 0) (List.replicate 16 0) (List.replicate 16 0 ++ [1])
      (List.replicate 32 0) (by decide) (by decide) (by decide)⟩

end TdE2E
